import Mathlib

/-!
Verification development for the next-minimal-store database schema.

The schema (a Supabase/PostgreSQL migration) declares the tables users,
customers, sizes, colors, products, product_variants, product_changes,
prices, order_statuses, orders, order_items and order_changes, together
with check constraints, unique constraints, foreign keys, a cascade rule,
row-level-security policies and a trigger creating a profile row for each
new auth identity.

This file shallowly embeds that schema: each table is a list of rows,
nullable SQL columns are `Option` fields, and every data-modifying SQL
statement becomes a function `DBState → args → Option DBState` (`none`
models a statement rejected by a constraint, leaving the state unchanged).
SQL three-valued logic is embedded where it matters: a CHECK constraint
is satisfied by a NULL operand, a UNIQUE constraint treats NULL values as
distinct, and a comparison with NULL inside a row-level-security policy
never accepts a row.  Timestamp columns (`created_at`) carry no logical
content and are not modelled.
-/

namespace MinimalStore

/-- Row of the `users` table: profile data keyed by the auth identity.
`jsonb` payloads are modelled as opaque optional strings. -/
structure UserRow where
  id : String
  full_name : Option String
  avatar_url : Option String
  billing_address : Option String
  payment_method : Option String
deriving DecidableEq

/-- Row of the `customers` table (private Stripe-customer mapping). -/
structure CustomerRow where
  id : String
  stripe_customer_id : Option String
deriving DecidableEq

/-- Row of the `sizes` table (`id serial`, `name` unique). -/
structure SizeRow where
  id : Nat
  name : String
  category : String
  sizeSystem : String
deriving DecidableEq

/-- Row of the `colors` table (`id serial`, `name` unique). -/
structure ColorRow where
  id : Nat
  name : String
deriving DecidableEq

/-- Row of the `products` table.  The schema declares `id serial`, but the
columns referencing it (`product_variants.product_id`,
`product_changes.product_id`) are declared `text`; product ids are
therefore modelled as strings, `serial` mattering only as a source of a
unique primary key. -/
structure ProductRow where
  id : String
  active : Bool
  name : String
  description : Option String
  image : Option String
deriving DecidableEq

/-- Row of the `product_variants` table.  `quantity` is a nullable integer
column with `default 0 check (quantity >= 0)`; `product_id` is nullable. -/
structure VariantRow where
  id : String
  product_id : Option String
  size_id : Nat
  color_id : Nat
  quantity : Option Int
  images : Option (List String)
  metadata : Option String
deriving DecidableEq

/-- Row of the `product_changes` table (admin-readable audit log). -/
structure ProductChangeRow where
  id : String
  product_id : Option String
  product_variant_id : Option String
  changelog : Option String
deriving DecidableEq

/-- Row of the `prices` table. -/
structure PriceRow where
  id : String
  product_variant_id : Option String
  active : Option Bool
  description : Option String
  unit_amount : Option Int
  currency : Option String
  metadata : Option String
deriving DecidableEq

/-- Row of the `order_statuses` table (`id serial`, `name` unique). -/
structure OrderStatusRow where
  id : Nat
  name : String
deriving DecidableEq

/-- Modelled from the spec: the `orders.status` column is declared with
type `order_status`, a type the schema file never creates.  The spec
describes the order-status domain as a closed enumeration of thirteen
lifecycle states, matching the rows inserted into `order_statuses`; this
inductive realises that enumeration. -/
inductive OrderStatus where
  | pendingPayment
  | created
  | processing
  | partShipped
  | shipped
  | outForDelivery
  | delivered
  | returnRequested
  | returnShipped
  | returned
  | partRefunded
  | refunded
  | canceled
deriving DecidableEq

/-- The SQL name of each order-status enumeration member. -/
def OrderStatus.label : OrderStatus → String
  | .pendingPayment => "pending_payment"
  | .created => "created"
  | .processing => "processing"
  | .partShipped => "partially_shipped"
  | .shipped => "shipped"
  | .outForDelivery => "out_for_delivery"
  | .delivered => "delivered"
  | .returnRequested => "return_requested"
  | .returnShipped => "return_shipped"
  | .returned => "returned"
  | .partRefunded => "partially_refunded"
  | .refunded => "refunded"
  | .canceled => "canceled"

/-- Row of the `orders` table.  `user_id` is `not null`; `status`,
`total_amount` and `currency` are nullable. -/
structure OrderRow where
  id : String
  user_id : String
  status : Option OrderStatus
  total_amount : Option Int
  currency : Option String
  metadata : Option String
deriving DecidableEq

/-- Row of the `order_items` table.  `order_id` is nullable. -/
structure OrderItemRow where
  id : String
  order_id : Option String
  product_variant_id : Option String
  quantity : Option Int
  unit_amount : Option Int
  currency : Option String
  metadata : Option String
deriving DecidableEq

/-- Row of the `order_changes` table. -/
structure OrderChangeRow where
  id : String
  order_id : Option String
  status : Option String
  metadata : Option String
deriving DecidableEq

/-- The database state: one list of rows per table, plus the ids present
in the external `auth.users` table that several foreign keys reference. -/
structure DBState where
  auth_users : List String
  users : List UserRow
  customers : List CustomerRow
  sizes : List SizeRow
  colors : List ColorRow
  products : List ProductRow
  product_variants : List VariantRow
  product_changes : List ProductChangeRow
  prices : List PriceRow
  order_statuses : List OrderStatusRow
  orders : List OrderRow
  order_items : List OrderItemRow
  order_changes : List OrderChangeRow
deriving DecidableEq

/-- The thirteen rows the migration inserts into `order_statuses`. -/
def initialOrderStatuses : List OrderStatusRow :=
  [⟨1, "pending_payment"⟩, ⟨2, "created"⟩, ⟨3, "processing"⟩,
   ⟨4, "partially_shipped"⟩, ⟨5, "shipped"⟩, ⟨6, "out_for_delivery"⟩,
   ⟨7, "delivered"⟩, ⟨8, "return_requested"⟩, ⟨9, "return_shipped"⟩,
   ⟨10, "returned"⟩, ⟨11, "partially_refunded"⟩, ⟨12, "refunded"⟩,
   ⟨13, "canceled"⟩]

/-- The state right after the migration ran: every table empty except
`order_statuses`, which the migration populates. -/
def initState : DBState :=
  { auth_users := [], users := [], customers := [], sizes := [],
    colors := [], products := [], product_variants := [],
    product_changes := [], prices := [], order_statuses := initialOrderStatuses,
    orders := [], order_items := [], order_changes := [] }

/-- The check `quantity >= 0` on `product_variants.quantity`, declared
twice in the schema (inline and as `check_quantity_non_negative`).  Per
SQL three-valued logic a NULL operand satisfies a CHECK constraint. -/
def checkQuantity : Option Int → Bool
  | none => true
  | some q => 0 ≤ q

/-- The check `char_length(currency) = 3` on `prices.currency`,
`orders.currency` and `order_items.currency`.  A NULL currency satisfies
the check. -/
def checkCurrency : Option String → Bool
  | none => true
  | some c => c.length == 3

/-- Conflict relation of the `unique (product_id, size_id, color_id)`
constraint on `product_variants`.  Per SQL semantics NULL values are
distinct, so two rows conflict only when both carry the same non-null
`product_id` and agree on `size_id` and `color_id`. -/
def variantConflict (a b : VariantRow) : Bool :=
  match a.product_id, b.product_id with
  | some p, some q => p == q && a.size_id == b.size_id && a.color_id == b.color_id
  | _, _ => false

/-- The `->>` operator of the trigger body: extract a text field from the
registration metadata, NULL when the key is absent. -/
def jsonGetText (meta : List (String × String)) (key : String) : Option String :=
  (meta.find? (fun kv => kv.1 == key)).map (fun kv => kv.2)

/-- The body of the `handle_new_user` trigger function: the profile row
inserted into `users` for a newly registered identity, copying
`full_name` and `avatar_url` from the registration metadata (NULL when
absent). -/
def handle_new_user (uid : String) (meta : List (String × String)) : UserRow :=
  { id := uid, full_name := jsonGetText meta "full_name",
    avatar_url := jsonGetText meta "avatar_url",
    billing_address := none, payment_method := none }

/-- Registration of a new identity in `auth.users`.  The primary key of
`auth.users` requires the id to be fresh; the `on_auth_user_created`
trigger synchronously inserts the profile row built by `handle_new_user`,
and a failure of that insert (a `users` primary-key conflict) aborts the
whole registration, since trigger and insert share one transaction. -/
def registerUser (s : DBState) (uid : String) (meta : List (String × String)) :
    Option DBState :=
  if s.auth_users.all (fun a => a != uid) && s.users.all (fun u => u.id != uid) then
    some { s with auth_users := uid :: s.auth_users,
                  users := handle_new_user uid meta :: s.users }
  else none

/-- Update of a user's own profile row, as allowed by the policy
`Can update own user data.` (`using (auth.uid() = id)`): only the row
whose id equals the acting identity is affected, and the id itself cannot
change. -/
def updateUserProfile (s : DBState) (uid : String) (fn av ba pm : Option String) :
    DBState :=
  { s with users := s.users.map (fun u =>
      if u.id == uid then
        { u with full_name := fn, avatar_url := av,
                 billing_address := ba, payment_method := pm }
      else u) }

/-- Insert into `sizes`: primary key and `name` uniqueness. -/
def insertSize (s : DBState) (r : SizeRow) : Option DBState :=
  if s.sizes.all (fun w => w.id != r.id && w.name != r.name) then
    some { s with sizes := r :: s.sizes }
  else none

/-- Insert into `colors`: primary key and `name` uniqueness. -/
def insertColor (s : DBState) (r : ColorRow) : Option DBState :=
  if s.colors.all (fun w => w.id != r.id && w.name != r.name) then
    some { s with colors := r :: s.colors }
  else none

/-- Insert into `products`: primary key uniqueness. -/
def insertProduct (s : DBState) (r : ProductRow) : Option DBState :=
  if s.products.all (fun w => w.id != r.id) then
    some { s with products := r :: s.products }
  else none

/-- Whether some row of `prices`, `order_items` or `product_changes`
references the variant `vid`; such a reference blocks deleting the
variant (plain `references` clauses, no cascade). -/
def variantReferenced (s : DBState) (vid : String) : Bool :=
  s.prices.any (fun p => p.product_variant_id == some vid) ||
  s.order_items.any (fun it => it.product_variant_id == some vid) ||
  s.product_changes.any (fun c => c.product_variant_id == some vid)

/-- Insert into `product_variants`: primary key uniqueness, foreign keys
to `products`, `sizes` and `colors`, the `quantity >= 0` check, and the
`unique (product_id, size_id, color_id)` constraint. -/
def insertVariant (s : DBState) (v : VariantRow) : Option DBState :=
  if s.product_variants.all (fun w => w.id != v.id && !variantConflict w v)
      && (match v.product_id with
          | none => true
          | some p => s.products.any (fun w => w.id == p))
      && s.sizes.any (fun w => w.id == v.size_id)
      && s.colors.any (fun w => w.id == v.color_id)
      && checkQuantity v.quantity then
    some { s with product_variants := v :: s.product_variants }
  else none

/-- Update of the stock quantity of the variant `vid`.  The CHECK
constraints on `quantity` are evaluated on every updated row; when they
fail the statement is rejected and no state change happens.  An update
matching no row succeeds vacuously. -/
def updateVariantQuantity (s : DBState) (vid : String) (q : Option Int) :
    Option DBState :=
  if !(s.product_variants.any (fun v => v.id == vid)) || checkQuantity q then
    some { s with product_variants := s.product_variants.map (fun v =>
      if v.id == vid then { v with quantity := q } else v) }
  else none

/-- Delete a product variant; blocked while `prices`, `order_items` or
`product_changes` rows reference it. -/
def deleteVariant (s : DBState) (vid : String) : Option DBState :=
  if variantReferenced s vid then none
  else
    some { s with product_variants :=
      s.product_variants.filter (fun v => v.id != vid) }

/-- Delete a product.  `product_variants.product_id references products
on delete cascade` removes the product's variants with it, but a
`product_changes` reference to the product, or any reference to one of
the cascaded variants, blocks the whole statement. -/
def deleteProduct (s : DBState) (pid : String) : Option DBState :=
  if s.product_changes.any (fun c => c.product_id == some pid)
      || s.product_variants.any (fun v =>
            v.product_id == some pid && variantReferenced s v.id) then
    none
  else
    some { s with products := s.products.filter (fun p => p.id != pid),
                  product_variants :=
                    s.product_variants.filter (fun v => v.product_id != some pid) }

/-- Insert into `product_changes` (performed by RLS-bypassing back-office
roles; see the policy layer below): primary key uniqueness and foreign
keys to `products` and `product_variants`. -/
def insertProductChange (s : DBState) (r : ProductChangeRow) : Option DBState :=
  if s.product_changes.all (fun w => w.id != r.id)
      && (match r.product_id with
          | none => true
          | some p => s.products.any (fun w => w.id == p))
      && (match r.product_variant_id with
          | none => true
          | some v => s.product_variants.any (fun w => w.id == v)) then
    some { s with product_changes := r :: s.product_changes }
  else none

/-- Insert into `prices`: primary key uniqueness, foreign key to
`product_variants`, and the 3-character currency check. -/
def insertPrice (s : DBState) (r : PriceRow) : Option DBState :=
  if s.prices.all (fun w => w.id != r.id)
      && (match r.product_variant_id with
          | none => true
          | some v => s.product_variants.any (fun w => w.id == v))
      && checkCurrency r.currency then
    some { s with prices := r :: s.prices }
  else none

/-- Insert into `orders`: primary key uniqueness, the `not null` foreign
key `user_id references auth.users`, and the currency check. -/
def insertOrder (s : DBState) (r : OrderRow) : Option DBState :=
  if s.orders.all (fun w => w.id != r.id)
      && s.auth_users.any (fun a => a == r.user_id)
      && checkCurrency r.currency then
    some { s with orders := r :: s.orders }
  else none

/-- Insert into `order_items`: primary key uniqueness, nullable foreign
keys to `orders` and `product_variants`, and the currency check. -/
def insertOrderItem (s : DBState) (r : OrderItemRow) : Option DBState :=
  if s.order_items.all (fun w => w.id != r.id)
      && (match r.order_id with
          | none => true
          | some o => s.orders.any (fun w => w.id == o))
      && (match r.product_variant_id with
          | none => true
          | some v => s.product_variants.any (fun w => w.id == v))
      && checkCurrency r.currency then
    some { s with order_items := r :: s.order_items }
  else none

/-- Insert into `order_changes`: primary key uniqueness and the nullable
foreign key to `orders`. -/
def insertOrderChange (s : DBState) (r : OrderChangeRow) : Option DBState :=
  if s.order_changes.all (fun w => w.id != r.id)
      && (match r.order_id with
          | none => true
          | some o => s.orders.any (fun w => w.id == o)) then
    some { s with order_changes := r :: s.order_changes }
  else none

/-- Delete an order.  The constraint `fk_order_items_order_id ... on
delete cascade` removes the order's items with it; the plain
`order_changes.order_id references orders` clause blocks the delete while
an order-change row references the order. -/
def deleteOrder (s : DBState) (oid : String) : Option DBState :=
  if s.order_changes.any (fun c => c.order_id == some oid) then none
  else
    some { s with orders := s.orders.filter (fun o => o.id != oid),
                  order_items :=
                    s.order_items.filter (fun it => it.order_id != some oid) }

/-- One constraint-checked mutation of the store, each constructor one of
the SQL statements embedded above.  For partial operations the step
exists only when the statement succeeds; a rejected statement yields no
transition at all, which is how "the state is unchanged on a failed
update" is rendered. -/
inductive Step : DBState → DBState → Prop where
  | regUser {s t : DBState} {uid : String} {meta : List (String × String)} :
      registerUser s uid meta = some t → Step s t
  | updProfile {s : DBState} (uid : String) (fn av ba pm : Option String) :
      Step s (updateUserProfile s uid fn av ba pm)
  | insSize {s t : DBState} {r : SizeRow} : insertSize s r = some t → Step s t
  | insColor {s t : DBState} {r : ColorRow} : insertColor s r = some t → Step s t
  | insProduct {s t : DBState} {r : ProductRow} :
      insertProduct s r = some t → Step s t
  | insVariant {s t : DBState} {v : VariantRow} :
      insertVariant s v = some t → Step s t
  | updQuantity {s t : DBState} {vid : String} {q : Option Int} :
      updateVariantQuantity s vid q = some t → Step s t
  | delVariant {s t : DBState} {vid : String} :
      deleteVariant s vid = some t → Step s t
  | delProduct {s t : DBState} {pid : String} :
      deleteProduct s pid = some t → Step s t
  | insProductChange {s t : DBState} {r : ProductChangeRow} :
      insertProductChange s r = some t → Step s t
  | insPrice {s t : DBState} {r : PriceRow} : insertPrice s r = some t → Step s t
  | insOrder {s t : DBState} {r : OrderRow} : insertOrder s r = some t → Step s t
  | insOrderItem {s t : DBState} {r : OrderItemRow} :
      insertOrderItem s r = some t → Step s t
  | insOrderChange {s t : DBState} {r : OrderChangeRow} :
      insertOrderChange s r = some t → Step s t
  | delOrder {s t : DBState} {oid : String} : deleteOrder s oid = some t → Step s t

/-- The states reachable from the freshly migrated database. -/
inductive Reachable : DBState → Prop where
  | init : Reachable initState
  | step {s t : DBState} : Reachable s → Step s t → Reachable t

/-- SQL equality `auth.uid() = x` for a non-null column value `x`: a NULL
`auth.uid()` (an unauthenticated caller) makes the comparison unknown,
hence the policy rejects the row. -/
def uidEq : Option String → String → Bool
  | none, _ => false
  | some u, v => u == v

/-- The `orders` select policy `Can only view own orders.`
(`using (auth.uid() = user_id)`) applied to a read of the whole table. -/
def selectOrders (uid : Option String) (s : DBState) : List OrderRow :=
  s.orders.filter (fun o => uidEq uid o.user_id)

/-- The `order_items` select policy `Can only view own order items.`
(`using (auth.uid() = (select user_id from orders where orders.id =
order_items.order_id))`): a row is visible when the scalar subquery finds
the parent order and its owner equals `auth.uid()`; a NULL `order_id`, or
a missing parent, makes the subquery empty and the comparison unknown. -/
def selectOrderItems (uid : Option String) (s : DBState) : List OrderItemRow :=
  s.order_items.filter (fun it =>
    match it.order_id with
    | none => false
    | some oid => s.orders.any (fun o => o.id == oid && uidEq uid o.user_id))

/-- Every variant row satisfies the quantity check. -/
def QuantInv (vs : List VariantRow) : Prop :=
  ∀ v ∈ vs, checkQuantity v.quantity = true

/-- Distinct variant rows have distinct primary keys and never conflict
under the `(product_id, size_id, color_id)` unique constraint. -/
def UniqInv (vs : List VariantRow) : Prop :=
  ∀ a ∈ vs, ∀ b ∈ vs, a ≠ b → a.id ≠ b.id ∧ variantConflict a b = false

/-- Every profile row belongs to a registered auth identity. -/
def UsersInv (s : DBState) : Prop :=
  ∀ u ∈ s.users, u.id ∈ s.auth_users

/-- The inductive invariant of the store. -/
def Inv (s : DBState) : Prop :=
  QuantInv s.product_variants ∧ UniqInv s.product_variants ∧ UsersInv s ∧
    s.order_statuses = initialOrderStatuses

lemma variantConflict_symm (a b : VariantRow) :
    variantConflict a b = variantConflict b a := by
  unfold variantConflict
  cases a.product_id <;> cases b.product_id <;> simp
  rw [Bool.eq_iff_iff]
  simp only [Bool.and_eq_true, beq_iff_eq]
  constructor <;> rintro ⟨⟨h1, h2⟩, h3⟩ <;> exact ⟨⟨h1.symm, h2.symm⟩, h3.symm⟩

lemma variantConflict_setq_left (a b : VariantRow) (q : Option Int) :
    variantConflict { a with quantity := q } b = variantConflict a b := by
  cases a; rfl

lemma variantConflict_setq_right (a b : VariantRow) (q : Option Int) :
    variantConflict a { b with quantity := q } = variantConflict a b := by
  cases b; rfl

lemma quantInv_filter {vs : List VariantRow} (p : VariantRow → Bool)
    (h : QuantInv vs) : QuantInv (vs.filter p) :=
  fun v hv => h v (List.mem_of_mem_filter hv)

lemma uniqInv_filter {vs : List VariantRow} (p : VariantRow → Bool)
    (h : UniqInv vs) : UniqInv (vs.filter p) :=
  fun a ha b hb hne =>
    h a (List.mem_of_mem_filter ha) b (List.mem_of_mem_filter hb) hne

lemma inv_init : Inv initState := by
  refine ⟨?_, ?_, ?_, rfl⟩ <;> intro x hx <;> simp [initState] at hx

/-- Every schema operation preserves the invariant. -/
lemma inv_step {s t : DBState} (hs : Inv s) (hstep : Step s t) : Inv t := by
  obtain ⟨hq, hu, hsub, hst⟩ := hs
  cases hstep with
  | regUser h =>
    unfold registerUser at h
    split at h
    · rw [Option.some.injEq] at h
      subst h
      refine ⟨hq, hu, ?_, hst⟩
      intro u hu'
      rcases List.mem_cons.mp hu' with h' | h'
      · subst h'
        exact List.mem_cons_self _ _
      · exact List.mem_cons_of_mem _ (hsub u h')
    · simp at h
  | updProfile uid fn av ba pm =>
    refine ⟨hq, hu, ?_, hst⟩
    intro u' hu'
    obtain ⟨u, hmem, rfl⟩ := List.mem_map.mp hu'
    have hid : ((if u.id == uid then
        { u with full_name := fn, avatar_url := av, billing_address := ba,
                 payment_method := pm } else u) : UserRow).id = u.id := by
      split <;> rfl
    rw [hid]
    exact hsub u hmem
  | insSize h =>
    unfold insertSize at h
    split at h
    · rw [Option.some.injEq] at h
      subst h
      exact ⟨hq, hu, hsub, hst⟩
    · simp at h
  | insColor h =>
    unfold insertColor at h
    split at h
    · rw [Option.some.injEq] at h
      subst h
      exact ⟨hq, hu, hsub, hst⟩
    · simp at h
  | insProduct h =>
    unfold insertProduct at h
    split at h
    · rw [Option.some.injEq] at h
      subst h
      exact ⟨hq, hu, hsub, hst⟩
    · simp at h
  | insVariant h =>
    unfold insertVariant at h
    split at h
    · rw [Option.some.injEq] at h
      subst h
      rename_i hcond
      simp only [Bool.and_eq_true] at hcond
      obtain ⟨⟨⟨⟨hall, _⟩, _⟩, _⟩, hq'⟩ := hcond
      simp only [List.all_eq_true, Bool.and_eq_true, bne_iff_ne,
        Bool.not_eq_true'] at hall
      constructor
      · intro v' hv'
        rcases List.mem_cons.mp hv' with h' | h'
        · subst h'; exact hq'
        · exact hq v' h'
      refine ⟨?_, hsub, hst⟩
      intro a ha b hb hne
      rcases List.mem_cons.mp ha with ha' | ha' <;>
        rcases List.mem_cons.mp hb with hb' | hb'
      · exact absurd (ha'.trans hb'.symm) hne
      · subst ha'
        obtain ⟨hid, hcf⟩ := hall b hb'
        exact ⟨fun e => hid e.symm, (variantConflict_symm _ _).trans hcf⟩
      · subst hb'
        exact hall a ha'
      · exact hu a ha' b hb' hne
    · simp at h
  | updQuantity h =>
    unfold updateVariantQuantity at h
    split at h
    · rw [Option.some.injEq] at h
      subst h
      rename_i vid q hcond
      have hfid : ∀ v : VariantRow,
          ((if v.id == vid then { v with quantity := q } else v) : VariantRow).id
            = v.id := by
        intro v; split <;> rfl
      have hfconf : ∀ a b : VariantRow,
          variantConflict (if a.id == vid then { a with quantity := q } else a)
            (if b.id == vid then { b with quantity := q } else b)
            = variantConflict a b := by
        intro a b
        split <;> split <;>
          simp [variantConflict_setq_left, variantConflict_setq_right]
      constructor
      · intro v' hv'
        obtain ⟨v, hv, rfl⟩ := List.mem_map.mp hv'
        by_cases hid : (v.id == vid) = true
        · rw [Bool.or_eq_true] at hcond
          rcases hcond with hnone | hck
          · exfalso
            have : s.product_variants.any (fun v => v.id == vid) = true :=
              List.any_eq_true.mpr ⟨v, hv, hid⟩
            rw [this] at hnone
            simp at hnone
          · simp only [hid, if_true]
            exact hck
        · simp only [hid, if_false]
          exact hq v hv
      refine ⟨?_, hsub, hst⟩
      intro a' ha' b' hb' hne
      obtain ⟨a, ha, rfl⟩ := List.mem_map.mp ha'
      obtain ⟨b, hb, rfl⟩ := List.mem_map.mp hb'
      have hab : a ≠ b := by
        intro e; subst e; exact hne rfl
      obtain ⟨hid, hcf⟩ := hu a ha b hb hab
      refine ⟨?_, ?_⟩
      · rw [hfid a, hfid b]; exact hid
      · rw [hfconf a b]; exact hcf
    · simp at h
  | delVariant h =>
    unfold deleteVariant at h
    split at h
    · simp at h
    · rw [Option.some.injEq] at h
      subst h
      exact ⟨quantInv_filter _ hq, uniqInv_filter _ hu, hsub, hst⟩
  | delProduct h =>
    unfold deleteProduct at h
    split at h
    · simp at h
    · rw [Option.some.injEq] at h
      subst h
      exact ⟨quantInv_filter _ hq, uniqInv_filter _ hu, hsub, hst⟩
  | insProductChange h =>
    unfold insertProductChange at h
    split at h
    · rw [Option.some.injEq] at h
      subst h
      exact ⟨hq, hu, hsub, hst⟩
    · simp at h
  | insPrice h =>
    unfold insertPrice at h
    split at h
    · rw [Option.some.injEq] at h
      subst h
      exact ⟨hq, hu, hsub, hst⟩
    · simp at h
  | insOrder h =>
    unfold insertOrder at h
    split at h
    · rw [Option.some.injEq] at h
      subst h
      exact ⟨hq, hu, hsub, hst⟩
    · simp at h
  | insOrderItem h =>
    unfold insertOrderItem at h
    split at h
    · rw [Option.some.injEq] at h
      subst h
      exact ⟨hq, hu, hsub, hst⟩
    · simp at h
  | insOrderChange h =>
    unfold insertOrderChange at h
    split at h
    · rw [Option.some.injEq] at h
      subst h
      exact ⟨hq, hu, hsub, hst⟩
    · simp at h
  | delOrder h =>
    unfold deleteOrder at h
    split at h
    · simp at h
    · rw [Option.some.injEq] at h
      subst h
      exact ⟨hq, hu, hsub, hst⟩

/-- Every reachable state satisfies the invariant. -/
lemma reachable_inv {s : DBState} (h : Reachable s) : Inv s := by
  induction h with
  | init => exact inv_init
  | step _ hstep ih => exact inv_step ih hstep

/-- A PostgreSQL role as seen by the row-level-security policies: the
anonymous role, ordinary authenticated users, and the `admin` role the
policies name in their `to` clauses. -/
inductive Role where
  | anon
  | authenticated
  | admin
deriving DecidableEq

/-- The class of SQL command a policy governs. -/
inductive SqlCmd where
  | selectCmd
  | insertCmd
  | updateCmd
  | deleteCmd
deriving DecidableEq

/-- One `create policy` statement: the command it governs, the role named
in its `to` clause (`none` when the clause is absent, so the policy
applies to every role), and its `using`/`with check` expression, which on
the tables below is literally `true`. -/
structure PolicyRule where
  cmd : SqlCmd
  toRole : Option Role
  cond : Bool
deriving DecidableEq

/-- Whether some permissive policy in `ps` lets role `r` perform command
`c`.  With row-level security enabled, a command no policy covers is
denied: this is the default-deny evaluation PostgreSQL applies. -/
def policyAllows (ps : List PolicyRule) (c : SqlCmd) (r : Role) : Bool :=
  ps.any (fun p => p.cmd == c
    && (match p.toRole with | none => true | some ρ => ρ == r)
    && p.cond)

/-- The four policies on `sizes`: public select, admin-only writes. -/
def sizesPolicies : List PolicyRule :=
  [⟨.selectCmd, none, true⟩, ⟨.insertCmd, some .admin, true⟩,
   ⟨.updateCmd, some .admin, true⟩, ⟨.deleteCmd, some .admin, true⟩]

/-- The four policies on `colors`. -/
def colorsPolicies : List PolicyRule :=
  [⟨.selectCmd, none, true⟩, ⟨.insertCmd, some .admin, true⟩,
   ⟨.updateCmd, some .admin, true⟩, ⟨.deleteCmd, some .admin, true⟩]

/-- The four policies on `products`. -/
def productsPolicies : List PolicyRule :=
  [⟨.selectCmd, none, true⟩, ⟨.insertCmd, some .admin, true⟩,
   ⟨.updateCmd, some .admin, true⟩, ⟨.deleteCmd, some .admin, true⟩]

/-- The four policies on `product_variants`. -/
def productVariantsPolicies : List PolicyRule :=
  [⟨.selectCmd, none, true⟩, ⟨.insertCmd, some .admin, true⟩,
   ⟨.updateCmd, some .admin, true⟩, ⟨.deleteCmd, some .admin, true⟩]

/-- The single policy on `product_changes`: `Admins can view all product
changes.`, a select policy `to admin`; no insert, update or delete policy
exists on the table. -/
def productChangesPolicies : List PolicyRule :=
  [⟨.selectCmd, some .admin, true⟩]

/-- The names of the thirteen order-status rows, in insertion order. -/
def orderStatusNames : List String :=
  ["pending_payment", "created", "processing", "partially_shipped",
   "shipped", "out_for_delivery", "delivered", "return_requested",
   "return_shipped", "returned", "partially_refunded", "refunded",
   "canceled"]

/-- All members of the order-status enumeration. -/
def allOrderStatuses : List OrderStatus :=
  [.pendingPayment, .created, .processing, .partShipped, .shipped,
   .outForDelivery, .delivered, .returnRequested, .returnShipped,
   .returned, .partRefunded, .refunded, .canceled]

/-! Concrete rows and states used by witnesses and counterexamples. -/

def exSize : SizeRow := ⟨1, "Small", "Shirt", "US"⟩

def exColor : ColorRow := ⟨1, "Red"⟩

def exProduct : ProductRow := ⟨"prod_1", false, "Tee", none, none⟩

/-- A variant with a NULL `product_id`. -/
def exVarNullA : VariantRow := ⟨"variant_a", none, 1, 1, some 10, none, none⟩

/-- A second variant with a NULL `product_id` and the same size/color. -/
def exVarNullB : VariantRow := ⟨"variant_b", none, 1, 1, some 5, none, none⟩

/-- A variant of product `prod_1`. -/
def exVarProd : VariantRow := ⟨"variant_c", some "prod_1", 1, 1, some 10, none, none⟩

def stSize : DBState := { initState with sizes := [exSize] }

def stSC : DBState := { stSize with colors := [exColor] }

def stVarNullA : DBState := { stSC with product_variants := [exVarNullA] }

/-- State holding two distinct variants that share the triple
`(NULL, 1, 1)`: SQL unique constraints treat NULLs as distinct, so both
inserts succeed. -/
def stVarDup : DBState := { stSC with product_variants := [exVarNullB, exVarNullA] }

def stProd : DBState := { stSC with products := [exProduct] }

def stVarProd : DBState := { stProd with product_variants := [exVarProd] }

/-- State after registering identity `user_1` with empty metadata. -/
def stUser : DBState :=
  { initState with auth_users := ["user_1"],
                   users := [handle_new_user "user_1" []] }

/-- An order whose nullable `status` column is NULL. -/
def exOrderNull : OrderRow := ⟨"order_1", "user_1", none, none, none, none⟩

def stOrderNull : DBState := { stUser with orders := [exOrderNull] }

lemma reach_stSize : Reachable stSize :=
  Reachable.step Reachable.init (@Step.insSize initState stSize exSize (by decide))

lemma reach_stSC : Reachable stSC :=
  Reachable.step reach_stSize (@Step.insColor stSize stSC exColor (by decide))

lemma reach_stVarNullA : Reachable stVarNullA :=
  Reachable.step reach_stSC
    (@Step.insVariant stSC stVarNullA exVarNullA (by decide))

lemma reach_stVarDup : Reachable stVarDup :=
  Reachable.step reach_stVarNullA
    (@Step.insVariant stVarNullA stVarDup exVarNullB (by decide))

lemma reach_stProd : Reachable stProd :=
  Reachable.step reach_stSC (@Step.insProduct stSC stProd exProduct (by decide))

lemma reach_stVarProd : Reachable stVarProd :=
  Reachable.step reach_stProd
    (@Step.insVariant stProd stVarProd exVarProd (by decide))

lemma reach_stUser : Reachable stUser :=
  Reachable.step Reachable.init (@Step.regUser initState stUser "user_1" [] (by decide))

lemma reach_stOrderNull : Reachable stOrderNull :=
  Reachable.step reach_stUser
    (@Step.insOrder stUser stOrderNull exOrderNull (by decide))

/-! A (not necessarily reachable) state with two users' orders and items,
used to exercise the select policies and the delete cascade. -/

def exOrderA : OrderRow := ⟨"order_a", "user_1", none, none, none, none⟩

def exOrderB : OrderRow := ⟨"order_b", "user_2", none, none, none, none⟩

def exItem1 : OrderItemRow := ⟨"item_1", some "order_a", none, none, none, none, none⟩

def exItem2 : OrderItemRow := ⟨"item_2", some "order_a", none, none, none, none, none⟩

def exItem3 : OrderItemRow := ⟨"item_3", some "order_b", none, none, none, none, none⟩

/-- An order item whose nullable `order_id` is NULL. -/
def exItem4 : OrderItemRow := ⟨"item_4", none, none, none, none, none, none⟩

def exOrdersState : DBState :=
  { initState with auth_users := ["user_1", "user_2"],
                   orders := [exOrderA, exOrderB],
                   order_items := [exItem1, exItem2, exItem3, exItem4] }

/-- `exOrdersState` after `delete from orders where id = order_a`. -/
def exOrdersDel : DBState :=
  { initState with auth_users := ["user_1", "user_2"],
                   orders := [exOrderB],
                   order_items := [exItem3, exItem4] }

/-- Claim C1: at every reachable state no product-variant row stores a
negative quantity (the `quantity >= 0` checks admit NULL, which is not
negative), and an update that would set a negative quantity on an
existing variant is rejected by the `quantity >= 0` checks: it produces
no successor state, so the prior quantity value is retained. -/
theorem claim_C1_stock_quantity_non_negative :
    ∀ s : DBState, Reachable s →
      (∀ v ∈ s.product_variants, ∀ n : Int, v.quantity = some n → 0 ≤ n) ∧
      (∀ vid : String, ∀ n : Int, n < 0 →
        (∃ v ∈ s.product_variants, v.id = vid) →
        updateVariantQuantity s vid (some n) = none) := by
  intro s hreach
  obtain ⟨hq, -, -, -⟩ := reachable_inv hreach
  constructor
  · intro v hv n hn
    have h := hq v hv
    rw [hn] at h
    simpa [checkQuantity] using h
  · rintro vid n hneg ⟨v, hv, hvid⟩
    have hany : s.product_variants.any (fun v => v.id == vid) = true :=
      List.any_eq_true.mpr ⟨v, hv, by simp [hvid]⟩
    have hck : checkQuantity (some n) = false := by
      simp [checkQuantity]
      omega
    unfold updateVariantQuantity
    rw [if_neg]
    simp [hany, hck]

/-- Witness for C1 at a reachable state holding the variant `variant_a`
with quantity 10: the quantity is non-negative and the update to -1 is
rejected. -/
theorem claim_C1_witness :
    Reachable stVarNullA ∧ (0 : Int) ≤ 10 ∧
      updateVariantQuantity stVarNullA "variant_a" (some (-1)) = none :=
  ⟨reach_stVarNullA,
   (claim_C1_stock_quantity_non_negative stVarNullA reach_stVarNullA).1
     exVarNullA (by decide) 10 rfl,
   (claim_C1_stock_quantity_non_negative stVarNullA reach_stVarNullA).2
     "variant_a" (-1) (by decide) ⟨exVarNullA, by decide, rfl⟩⟩

/-- Counterexample to claim C2 as stated: `product_id` is nullable and
SQL unique constraints treat NULL values as distinct, so the reachable
state `stVarDup` holds two distinct variant rows that share the triple
`(NULL, 1, 1)`. -/
theorem claim_C2_counterexample :
    ¬ (∀ s : DBState, Reachable s →
        ∀ a ∈ s.product_variants, ∀ b ∈ s.product_variants, a ≠ b →
          ¬ (a.product_id = b.product_id ∧ a.size_id = b.size_id ∧
             a.color_id = b.color_id)) := by
  intro hclaim
  exact hclaim stVarDup reach_stVarDup exVarNullB (by decide) exVarNullA
    (by decide) (by decide) ⟨rfl, rfl, rfl⟩

/-- Claim C2 (amended): at every reachable state, distinct
product-variant rows never share a `(product_id, size_id, color_id)`
triple whose `product_id` is non-null, and an insert of a variant whose
triple conflicts with an existing row (same non-null product, same size,
same color) is rejected, leaving the existing rows unchanged.  Rows whose
`product_id` is NULL are exempt, because SQL unique constraints treat
NULLs as distinct. -/
theorem claim_C2_variant_triple_unique_amended :
    ∀ s : DBState, Reachable s →
      (∀ a ∈ s.product_variants, ∀ b ∈ s.product_variants, a ≠ b →
        ∀ p : String, a.product_id = some p → b.product_id = some p →
          ¬ (a.size_id = b.size_id ∧ a.color_id = b.color_id)) ∧
      (∀ v : VariantRow,
        (∃ w ∈ s.product_variants, variantConflict w v = true) →
        insertVariant s v = none) := by
  intro s hreach
  obtain ⟨-, huniq, -, -⟩ := reachable_inv hreach
  constructor
  · rintro a ha b hb hne p hap hbp ⟨hsz, hcl⟩
    obtain ⟨-, hcf⟩ := huniq a ha b hb hne
    have htrue : variantConflict a b = true := by
      unfold variantConflict
      rw [hap, hbp]
      simp [hsz, hcl]
    rw [htrue] at hcf
    exact Bool.noConfusion hcf
  · rintro v ⟨w, hw, hcfw⟩
    have hall : s.product_variants.all
        (fun w => w.id != v.id && !variantConflict w v) = false := by
      cases hval : s.product_variants.all
          (fun w => w.id != v.id && !variantConflict w v) with
      | false => rfl
      | true =>
        exfalso
        have h := List.all_eq_true.mp hval w hw
        rw [Bool.and_eq_true] at h
        rw [hcfw] at h
        simp at h
    unfold insertVariant
    rw [if_neg]
    simp [hall]

/-- Witness for the amended C2 at a reachable state holding the variant
`variant_c` of product `prod_1`: inserting a second variant with the same
product, size and color is rejected. -/
theorem claim_C2_witness :
    Reachable stVarProd ∧
      insertVariant stVarProd
        ⟨"variant_d", some "prod_1", 1, 1, some 3, none, none⟩ = none :=
  ⟨reach_stVarProd,
   (claim_C2_variant_triple_unique_amended stVarProd reach_stVarProd).2
     ⟨"variant_d", some "prod_1", 1, 1, some 3, none, none⟩
     ⟨exVarProd, by decide, by decide⟩⟩

/-- Claim C3: registering a fresh identity always succeeds — also with
empty metadata — and afterwards the `users` table holds exactly one
profile row with the new identifier, its `full_name` and `avatar_url`
copied from the registration metadata via `->>` when present and NULL
otherwise. -/
theorem claim_C3_new_user_profile_row :
    ∀ s : DBState, Reachable s →
      ∀ (uid : String) (meta : List (String × String)), uid ∉ s.auth_users →
        ∃ t : DBState, registerUser s uid meta = some t ∧
          t.users.filter (fun u => u.id == uid) =
            [{ id := uid, full_name := jsonGetText meta "full_name",
               avatar_url := jsonGetText meta "avatar_url",
               billing_address := none, payment_method := none }] := by
  intro s hreach uid meta hfresh
  obtain ⟨-, -, hsub, -⟩ := reachable_inv hreach
  have hcond : (s.auth_users.all (fun a => a != uid)
      && s.users.all (fun u => u.id != uid)) = true := by
    rw [Bool.and_eq_true]
    constructor
    · rw [List.all_eq_true]
      intro a ha
      rw [bne_iff_ne]
      intro e
      exact hfresh (e ▸ ha)
    · rw [List.all_eq_true]
      intro u hu
      rw [bne_iff_ne]
      intro e
      exact hfresh (e ▸ hsub u hu)
  have hreg : registerUser s uid meta =
      some { s with auth_users := uid :: s.auth_users,
                    users := handle_new_user uid meta :: s.users } := by
    unfold registerUser
    rw [if_pos hcond]
  refine ⟨_, hreg, ?_⟩
  rw [Bool.and_eq_true, List.all_eq_true, List.all_eq_true] at hcond
  show (handle_new_user uid meta :: s.users).filter (fun u => u.id == uid) = _
  rw [List.filter_cons_of_pos (by simp [handle_new_user])]
  rw [List.filter_eq_nil_iff.mpr]
  · rfl
  · intro u hu
    have := hcond.2 u hu
    simpa using this

/-- Claim C4: under the select policies, a user sees exactly the orders
they own and exactly the order items whose parent order they own, and a
query restricted to an order id they do not own returns the empty list —
a result, not an error. -/
theorem claim_C4_owner_scoped_order_reads :
    ∀ (u : String) (s : DBState),
      (∀ o : OrderRow,
        o ∈ selectOrders (some u) s ↔ o ∈ s.orders ∧ o.user_id = u) ∧
      (∀ it : OrderItemRow, it ∈ selectOrderItems (some u) s ↔
        it ∈ s.order_items ∧
          ∃ o ∈ s.orders, it.order_id = some o.id ∧ o.user_id = u) ∧
      (∀ oid : String, (∀ o ∈ s.orders, o.id = oid → o.user_id ≠ u) →
        (selectOrders (some u) s).filter (fun o => o.id == oid) = []) ∧
      (∀ oid : String, (∀ o ∈ s.orders, o.id = oid → o.user_id ≠ u) →
        (selectOrderItems (some u) s).filter
          (fun it => it.order_id == some oid) = []) := by
  intro u s
  have hord : ∀ o : OrderRow,
      o ∈ selectOrders (some u) s ↔ o ∈ s.orders ∧ o.user_id = u := by
    intro o
    simp only [selectOrders, List.mem_filter, uidEq, beq_iff_eq]
    constructor
    · rintro ⟨h1, h2⟩; exact ⟨h1, h2.symm⟩
    · rintro ⟨h1, h2⟩; exact ⟨h1, h2.symm⟩
  have hitem : ∀ it : OrderItemRow,
      it ∈ selectOrderItems (some u) s ↔
        it ∈ s.order_items ∧
          ∃ o ∈ s.orders, it.order_id = some o.id ∧ o.user_id = u := by
    intro it
    simp only [selectOrderItems, List.mem_filter]
    constructor
    · rintro ⟨hmem, hp⟩
      cases hoi : it.order_id with
      | none => rw [hoi] at hp; simp at hp
      | some oid =>
        rw [hoi] at hp
        simp only at hp
        obtain ⟨o, ho, hcond⟩ := List.any_eq_true.mp hp
        rw [Bool.and_eq_true] at hcond
        obtain ⟨h1, h2⟩ := hcond
        rw [beq_iff_eq] at h1
        refine ⟨hmem, o, ho, ?_, ?_⟩
        · exact congrArg some h1.symm
        · have h2' : (u == o.user_id) = true := h2
          rw [beq_iff_eq] at h2'
          exact h2'.symm
    · rintro ⟨hmem, o, ho, hoi, hou⟩
      refine ⟨hmem, ?_⟩
      rw [hoi]
      exact List.any_eq_true.mpr ⟨o, ho, by simp [uidEq, hou]⟩
  refine ⟨hord, hitem, ?_, ?_⟩
  · intro oid hother
    rw [List.filter_eq_nil_iff]
    intro o ho
    obtain ⟨hmem, hu'⟩ := (hord o).mp ho
    intro he
    rw [beq_iff_eq] at he
    exact hother o hmem he hu'
  · intro oid hother
    rw [List.filter_eq_nil_iff]
    intro it hit
    obtain ⟨hmem, o, ho, hoi, hou⟩ := (hitem it).mp hit
    intro he
    rw [beq_iff_eq] at he
    rw [he] at hoi
    exact hother o ho (Option.some.inj hoi).symm hou

/-- Witness for C4, matching the spec scenario: `user_2` querying the
items of `order_a`, which `user_1` owns, receives zero rows. -/
theorem claim_C4_witness :
    (∀ o ∈ exOrdersState.orders, o.id = "order_a" → o.user_id ≠ "user_2") ∧
      (selectOrderItems (some "user_2") exOrdersState).filter
        (fun it => it.order_id == some "order_a") = [] :=
  ⟨by decide,
   (claim_C4_owner_scoped_order_reads "user_2" exOrdersState).2.2.2 "order_a"
     (by decide)⟩

/-- Claim C5: on `prices`, `orders` and `order_items`, an insert carrying
a currency value succeeds only when that value has exactly 3 characters,
and any insert carrying a currency value of a different length — in
particular "US" and "USDX" — is rejected. -/
theorem claim_C5_currency_three_characters :
    (∀ (s : DBState) (r : PriceRow) (t : DBState), insertPrice s r = some t →
      ∀ c : String, r.currency = some c → c.length = 3) ∧
    (∀ (s : DBState) (r : OrderRow) (t : DBState), insertOrder s r = some t →
      ∀ c : String, r.currency = some c → c.length = 3) ∧
    (∀ (s : DBState) (r : OrderItemRow) (t : DBState),
      insertOrderItem s r = some t →
      ∀ c : String, r.currency = some c → c.length = 3) ∧
    (∀ (s : DBState) (r : PriceRow) (c : String), r.currency = some c →
      c.length ≠ 3 → insertPrice s r = none) ∧
    (∀ (s : DBState) (r : OrderRow) (c : String), r.currency = some c →
      c.length ≠ 3 → insertOrder s r = none) ∧
    (∀ (s : DBState) (r : OrderItemRow) (c : String), r.currency = some c →
      c.length ≠ 3 → insertOrderItem s r = none) := by
  refine ⟨?_, ?_, ?_, ?_, ?_, ?_⟩
  · intro s r t h c hc
    unfold insertPrice at h
    split at h
    · rename_i hcond
      simp only [Bool.and_eq_true] at hcond
      have h2 := hcond.2
      rw [hc] at h2
      simpa [checkCurrency] using h2
    · simp at h
  · intro s r t h c hc
    unfold insertOrder at h
    split at h
    · rename_i hcond
      simp only [Bool.and_eq_true] at hcond
      have h2 := hcond.2
      rw [hc] at h2
      simpa [checkCurrency] using h2
    · simp at h
  · intro s r t h c hc
    unfold insertOrderItem at h
    split at h
    · rename_i hcond
      simp only [Bool.and_eq_true] at hcond
      have h2 := hcond.2
      rw [hc] at h2
      simpa [checkCurrency] using h2
    · simp at h
  · intro s r c hc hlen
    have hck : checkCurrency r.currency = false := by
      rw [hc]
      simpa [checkCurrency] using hlen
    unfold insertPrice
    rw [if_neg]
    simp [hck]
  · intro s r c hc hlen
    have hck : checkCurrency r.currency = false := by
      rw [hc]
      simpa [checkCurrency] using hlen
    unfold insertOrder
    rw [if_neg]
    simp [hck]
  · intro s r c hc hlen
    have hck : checkCurrency r.currency = false := by
      rw [hc]
      simpa [checkCurrency] using hlen
    unfold insertOrderItem
    rw [if_neg]
    simp [hck]

/-- Witness for C5: the 2-character code "US" and the 4-character code
"USDX" are rejected on all three tables. -/
theorem claim_C5_witness :
    insertPrice initState ⟨"price_1", none, none, none, none, some "US", none⟩
        = none ∧
      insertPrice initState
        ⟨"price_2", none, none, none, none, some "USDX", none⟩ = none ∧
      insertOrder initState ⟨"order_x", "user_1", none, none, some "US", none⟩
        = none ∧
      insertOrder initState
        ⟨"order_y", "user_1", none, none, some "USDX", none⟩ = none ∧
      insertOrderItem initState
        ⟨"item_x", none, none, none, none, some "US", none⟩ = none ∧
      insertOrderItem initState
        ⟨"item_y", none, none, none, none, some "USDX", none⟩ = none :=
  ⟨claim_C5_currency_three_characters.2.2.2.1 initState _ "US" rfl (by decide),
   claim_C5_currency_three_characters.2.2.2.1 initState _ "USDX" rfl (by decide),
   claim_C5_currency_three_characters.2.2.2.2.1 initState _ "US" rfl (by decide),
   claim_C5_currency_three_characters.2.2.2.2.1 initState _ "USDX" rfl (by decide),
   claim_C5_currency_three_characters.2.2.2.2.2 initState _ "US" rfl (by decide),
   claim_C5_currency_three_characters.2.2.2.2.2 initState _ "USDX" rfl (by decide)⟩

/-- Counterexample to claim C6 as stated: `orders.status` is a nullable
column, so the reachable state `stOrderNull` holds an order whose status
field holds no member of the enumeration at all. -/
theorem claim_C6_counterexample :
    ¬ (∀ s : DBState, Reachable s →
        ∀ o ∈ s.orders, ∃ st : OrderStatus, o.status = some st) := by
  intro hclaim
  obtain ⟨st, hst⟩ := hclaim stOrderNull reach_stOrderNull exOrderNull (by decide)
  exact Option.noConfusion hst

/-- Claim C6 (amended): the order-status domain is a closed enumeration
of exactly the thirteen lifecycle states, the `order_statuses` table of
every reachable state lists exactly those thirteen names, and every order
row's status field, when non-null, holds a member of the enumeration; the
column is nullable, so a status may also be absent. -/
theorem claim_C6_order_status_enumeration_amended :
    ∀ s : DBState, Reachable s →
      s.order_statuses.map (fun r => r.name) = orderStatusNames ∧
      orderStatusNames.length = 13 ∧
      orderStatusNames.Nodup ∧
      allOrderStatuses.map OrderStatus.label = orderStatusNames ∧
      (∀ st : OrderStatus, st ∈ allOrderStatuses) ∧
      (∀ o ∈ s.orders, ∀ st : OrderStatus, o.status = some st →
        OrderStatus.label st ∈ orderStatusNames) := by
  intro s hreach
  obtain ⟨-, -, -, hst⟩ := reachable_inv hreach
  refine ⟨?_, by decide, by decide, by decide, ?_, ?_⟩
  · rw [hst]
    decide
  · intro st
    cases st <;> decide
  · intro o ho st h
    cases st <;> decide

/-- Witness for the amended C6 at the reachable state `stOrderNull`. -/
theorem claim_C6_witness :
    Reachable stOrderNull ∧
      stOrderNull.order_statuses.map (fun r => r.name) = orderStatusNames :=
  ⟨reach_stOrderNull,
   (claim_C6_order_status_enumeration_amended stOrderNull reach_stOrderNull).1⟩

/-- Claim C7: on the public reference tables `sizes`, `colors`,
`products` and `product_variants`, the policy layer lets every role —
including unauthenticated readers — select, while it permits insert,
update and delete exactly for the `admin` role. -/
theorem claim_C7_public_reference_table_policies :
    ∀ (r : Role) (c : SqlCmd),
      policyAllows sizesPolicies c r = (c == .selectCmd || r == .admin) ∧
      policyAllows colorsPolicies c r = (c == .selectCmd || r == .admin) ∧
      policyAllows productsPolicies c r = (c == .selectCmd || r == .admin) ∧
      policyAllows productVariantsPolicies c r
        = (c == .selectCmd || r == .admin) := by
  intro r c
  cases r <;> cases c <;> decide

/-- Claim C8: a successful order deletion removes the order, cascades to
exactly the order items referencing it, and leaves every other order and
every item of other orders (including items with a NULL `order_id`) in
place. -/
theorem claim_C8_order_delete_cascade :
    ∀ (s : DBState) (oid : String) (t : DBState), deleteOrder s oid = some t →
      (∀ o : OrderRow, o ∈ t.orders ↔ o ∈ s.orders ∧ o.id ≠ oid) ∧
      (∀ it : OrderItemRow,
        it ∈ t.order_items ↔ it ∈ s.order_items ∧ it.order_id ≠ some oid) := by
  intro s oid t h
  unfold deleteOrder at h
  split at h
  · simp at h
  · rw [Option.some.injEq] at h
    subst h
    constructor
    · intro o
      show o ∈ s.orders.filter (fun o => o.id != oid) ↔ _
      simp [List.mem_filter]
    · intro it
      show it ∈ s.order_items.filter (fun it => it.order_id != some oid) ↔ _
      simp [List.mem_filter]

/-- Witness for C8: deleting `order_a` from the two-user state removes
its items and keeps `order_b`, its item and the NULL-order item. -/
theorem claim_C8_witness :
    deleteOrder exOrdersState "order_a" = some exOrdersDel ∧
      (exItem1 ∈ exOrdersDel.order_items ↔
        exItem1 ∈ exOrdersState.order_items ∧
          exItem1.order_id ≠ some "order_a") :=
  ⟨by decide,
   (claim_C8_order_delete_cascade exOrdersState "order_a" exOrdersDel
     (by decide)).2 exItem1⟩

/-- Claim C9: with row-level security enabled on `product_changes` and
only the admin select policy defined, the policy layer denies insert,
update and delete to every policy-governed role — admin included — and
permits select exactly for admin; no policy-governed role can append to
the product change log. -/
theorem claim_C9_product_changes_admin_select_only :
    ∀ (r : Role) (c : SqlCmd),
      policyAllows productChangesPolicies c r
        = (c == .selectCmd && r == .admin) := by
  intro r c
  cases r <;> cases c <;> decide

/-- Claim C10: an order item whose `order_id` is NULL is excluded from
the owner-scoped select for every reader, authenticated or not: the
policy's subquery over `orders` finds no owner, so the comparison with
`auth.uid()` never holds. -/
theorem claim_C10_null_order_item_invisible :
    ∀ (uid : Option String) (s : DBState) (it : OrderItemRow),
      it.order_id = none → it ∉ selectOrderItems uid s := by
  intro uid s it h hmem
  unfold selectOrderItems at hmem
  rw [List.mem_filter] at hmem
  have hp := hmem.2
  simp only at hp
  rw [h] at hp
  simp at hp

/-- Witness for C10: the NULL-order item `item_4` is invisible to
`user_1`. -/
theorem claim_C10_witness :
    exItem4.order_id = none ∧
      exItem4 ∉ selectOrderItems (some "user_1") exOrdersState :=
  ⟨rfl,
   claim_C10_null_order_item_invisible (some "user_1") exOrdersState exItem4 rfl⟩

/-- Witness for C3: registering `user_1` at the fresh store with metadata
containing a full name creates exactly the expected profile row. -/
theorem claim_C3_witness :
    ("user_1" : String) ∉ initState.auth_users ∧
      ∃ t : DBState,
        registerUser initState "user_1" [("full_name", "Ada")] = some t ∧
          t.users.filter (fun u => u.id == "user_1") =
            [{ id := "user_1", full_name := some "Ada", avatar_url := none,
               billing_address := none, payment_method := none }] :=
  ⟨by decide,
   claim_C3_new_user_profile_row initState Reachable.init "user_1"
     [("full_name", "Ada")] (by decide)⟩

end MinimalStore
